import Mathlib

/-!
Shallow embedding of the Bucket-Versioning-Endpoints service
(`StorjService` in `storj.service.ts` and `BucketVersioningController`
in `bucket-versioning.controller.ts`).

Each adapter method builds one SDK command, sends it and returns the
response (or rethrows the backend error).  The embedding therefore takes
the backend's response (or error) as an explicit argument and models the
method as a pure function of it.  JavaScript `Array.prototype.sort` with a
numeric comparator is a stable sort; it is modelled by the stable
`List.insertionSort` over the comparator's order.  Optional SDK fields
(`Key?`, `VersionId?`, `LastModified?`, `Status?`, `Contents?`,
`Versions?`, `DeleteMarkers?`) are modelled as `Option`; timestamps are
epoch milliseconds as `Nat`.
-/

namespace BucketVersioning

/-- One entry of a `ListObjectVersions` response (an element of either the
`Versions` or the `DeleteMarkers` array).  `IsDeleteMarker` is the dynamic
property the service reads on such entries (`v.IsDeleteMarker`); an entry
on which the backend did not set it reads as falsy, i.e. `false`. -/
structure VEntry where
  Key : Option String
  VersionId : Option String
  LastModified : Option Nat
  IsDeleteMarker : Bool
deriving DecidableEq

/-- Backend response of `ListObjectVersionsCommand`: both result arrays are
optional. -/
structure ListVersionsResponse where
  Versions : Option (List VEntry)
  DeleteMarkers : Option (List VEntry)
deriving DecidableEq

/-- One entry of the `Contents` array of a `ListObjectsV2` response. -/
structure ObjectSummary where
  Key : Option String
deriving DecidableEq

/-- Backend response of `ListObjectsV2Command`: the `Contents` array is
optional. -/
structure ListObjectsResponse where
  Contents : Option (List ObjectSummary)
deriving DecidableEq

/-- Backend response of `GetBucketVersioningCommand`: `Status` is optional. -/
structure VersioningStatusResponse where
  Status : Option String
deriving DecidableEq

/-- Backend response of `DeleteObjectCommand` (unversioned delete): the
`VersionId` of the created delete marker, absent when the backend reports
none. -/
structure DeleteObjectResponse where
  VersionId : Option String
deriving DecidableEq

/-- The timestamp a sort comparator extracts from an entry:
`x.LastModified ? new Date(x.LastModified).getTime() : 0` — epoch
milliseconds, with a missing timestamp read as `0`. -/
def jsDateMs (d : Option Nat) : Nat :=
  d.getD 0

/-- The order of the descending-by-time sorts: comparator
`(a, b) => dateB - dateA` puts `a` no later than `b` exactly when
`dateB - dateA <= 0`.  The comparator in `undeleteObject`
(`new Date(x.LastModified).getTime()` without the `: 0` guard) evaluates
to `NaN` on a missing timestamp, leaving the order unspecified there; the
embedding reads a missing timestamp as `0` at both sort sites, and the
undelete theorems assume the timestamps of the sorted entries are
present. -/
def byTimeDesc (a b : VEntry) : Prop :=
  jsDateMs b.LastModified ≤ jsDateMs a.LastModified

instance : DecidableRel byTimeDesc :=
  fun a b => inferInstanceAs (Decidable (jsDateMs b.LastModified ≤ jsDateMs a.LastModified))

instance : IsTotal VEntry byTimeDesc :=
  ⟨fun _ _ => Nat.le_total _ _⟩

instance : IsTrans VEntry byTimeDesc :=
  ⟨fun _ _ _ hab hbc => Nat.le_trans hbc hab⟩

/-- Log levels of the NestJS `Logger` calls the service makes. -/
inductive LogLevel where
  | log
  | warn
  | error
deriving DecidableEq, BEq

namespace StorjService

/-- The four environment settings read through `ConfigService.get`. -/
structure StorjConfig where
  STORJ_ACCESS_KEY : Option String
  STORJ_SECRET_KEY : Option String
  STORJ_ENDPOINT : Option String
  STORJ_BUCKET : Option String
deriving DecidableEq

/-- JavaScript truthiness of an optional string setting: `undefined` and
the empty string are falsy. -/
def truthy : Option String → Bool
  | none => false
  | some s => !(s == "")

/-- The `S3Client` configuration built in the constructor. -/
structure S3ClientConfig where
  region : String
  endpoint : String
  accessKeyId : String
  secretAccessKey : String
  forcePathStyle : Bool
deriving DecidableEq

/-- The fields of a constructed `StorjService` instance.  `bucket` is read
from configuration by a field initializer without any validation. -/
structure StorjServiceState where
  bucket : Option String
  s3Client : S3ClientConfig
deriving DecidableEq

/-- The `StorjService` constructor: throws
`Error('Storj configuration is incomplete')` when access key, secret key
or endpoint is falsy, otherwise builds the client.  The `getD ""` reads
are only reached when the corresponding option is truthy, hence `some`. -/
def constructor (cfg : StorjConfig) : Except String StorjServiceState :=
  if !truthy cfg.STORJ_ACCESS_KEY || !truthy cfg.STORJ_SECRET_KEY
      || !truthy cfg.STORJ_ENDPOINT then
    .error "Storj configuration is incomplete"
  else
    .ok { bucket := cfg.STORJ_BUCKET
          s3Client :=
            { region := "us-east-1"
              endpoint := cfg.STORJ_ENDPOINT.getD ""
              accessKeyId := cfg.STORJ_ACCESS_KEY.getD ""
              secretAccessKey := cfg.STORJ_SECRET_KEY.getD ""
              forcePathStyle := true } }

/-- How an undelete can fail: its own
`Error('No delete marker found for the object')`, or a rethrown backend
error. -/
inductive UndeleteError (ε : Type) where
  | noDeleteMarkerFound
  | backend (e : ε)
deriving DecidableEq

/-- `uploadFile`: logs, sends one `PutObjectCommand` and returns the
result; on failure logs once at error level and rethrows the backend
error unchanged.  The value is the returned/thrown outcome paired with
the levels of the log calls made, in order. -/
def uploadFile {ε ρ : Type} (send : Except ε ρ) : Except ε ρ × List LogLevel :=
  match send with
  | .ok result => (.ok result, [.log, .log])
  | .error e => (.error e, [.log, .error])

/-- `deleteObjectVersion(key, versionId)`: logs, sends one
`DeleteObjectCommand` with `Key` and `VersionId` and returns the result;
on failure logs once at error level and rethrows the backend error
unchanged.  `delBackend` is the backend's outcome as a function of the
targeted key and version id. -/
def deleteObjectVersion {ε ρ : Type} (delBackend : String → Option String → Except ε ρ)
    (key : String) (versionId : Option String) : Except ε ρ × List LogLevel :=
  match delBackend key versionId with
  | .ok result => (.ok result, [.log, .log])
  | .error e => (.error e, [.log, .error])

/-- `listObjects`: `return response.Contents || []`. -/
def listObjects (resp : ListObjectsResponse) : List ObjectSummary :=
  resp.Contents.getD []

/-- `listObjectVersions`: `return response.Versions || []`. -/
def listObjectVersions (resp : ListVersionsResponse) : List VEntry :=
  resp.Versions.getD []

/-- `isVersioningEnabled`: `response.Status === 'Enabled'`. -/
def isVersioningEnabled (resp : VersioningStatusResponse) : Bool :=
  resp.Status == some "Enabled"

/-- `listObjectVersionsForKey(key)`: sends `ListObjectVersionsCommand`
with the key as prefix filter (the filtering itself is backend behaviour,
reflected in `resp`), concatenates `Versions || []` with
`DeleteMarkers || []` and stable-sorts the result descending by
last-modified time, a missing timestamp reading as `0`. -/
def listObjectVersionsForKey (key : String) (resp : ListVersionsResponse) : List VEntry :=
  List.insertionSort byTimeDesc (resp.Versions.getD [] ++ resp.DeleteMarkers.getD [])

/-- The filter inside `undeleteObject`:
`versions.filter(v => v.IsDeleteMarker && v.Key === key)`. -/
def deleteMarkersFor (key : String) (resp : ListVersionsResponse) : List VEntry :=
  (listObjectVersionsForKey key resp).filter fun v => v.IsDeleteMarker && v.Key == some key

/-- The marker `undeleteObject` targets: the head of the filtered delete
markers re-sorted descending by last-modified time
(`deleteMarkers.sort((a, b) => ...)[0]`). -/
def selectedDeleteMarker (key : String) (resp : ListVersionsResponse) : Option VEntry :=
  (List.insertionSort byTimeDesc (deleteMarkersFor key resp)).head?

/-- `undeleteObject(key)`: lists the merged versions for the key, filters
to delete markers whose key matches exactly, fails with
`noDeleteMarkerFound` when none remain, otherwise deletes the most recent
marker's version id through `deleteObjectVersion` and returns that
backend delete result (rethrowing a backend failure).  The `none` branch
of the inner match is unreachable: sorting a non-empty list is
non-empty. -/
def undeleteObject {ε ρ : Type} (key : String) (resp : ListVersionsResponse)
    (delBackend : String → Option String → Except ε ρ) : Except (UndeleteError ε) ρ :=
  let deleteMarkers := deleteMarkersFor key resp
  if deleteMarkers.isEmpty then
    .error .noDeleteMarkerFound
  else
    match selectedDeleteMarker key resp with
    | none => .error .noDeleteMarkerFound
    | some latest =>
      match (deleteObjectVersion delBackend key latest.VersionId).1 with
      | .ok result => .ok result
      | .error e => .error (.backend e)

/-- `deleteObjectWithMarker(key)`: sends one unversioned
`DeleteObjectCommand` and returns `response.VersionId`. -/
def deleteObjectWithMarker (resp : DeleteObjectResponse) : Option String :=
  resp.VersionId

/-- `downloadFile(key)` with its try/catch: logs, sends one
`GetObjectCommand`, streams the body to a buffer (`β` stands for the
delivered buffer) and logs again; on failure logs once at error level and
rethrows the backend error unchanged. -/
def downloadFile {ε β : Type} (send : Except ε β) : Except ε β × List LogLevel :=
  match send with
  | .ok buffer => (.ok buffer, [.log, .log])
  | .error e => (.error e, [.log, .error])

/-- `getObjectVersion(key, versionId)` with its try/catch: one
version-targeted `GetObjectCommand`, same log/rethrow shape as
`downloadFile`. -/
def getObjectVersion {ε β : Type} (send : Except ε β) : Except ε β × List LogLevel :=
  match send with
  | .ok buffer => (.ok buffer, [.log, .log])
  | .error e => (.error e, [.log, .error])

/-- `getCurrentObjectVersion(key)` with its try/catch: one
`GetObjectCommand`; `β` stands for the delivered
`(buffer, metadata)` pair. -/
def getCurrentObjectVersion {ε β : Type} (send : Except ε β) : Except ε β × List LogLevel :=
  match send with
  | .ok value => (.ok value, [.log, .log])
  | .error e => (.error e, [.log, .error])

/-- `getObjectVersionWithMetadata(key, versionId)` with its try/catch:
one version-targeted `GetObjectCommand`; `β` stands for the delivered
`(buffer, metadata)` pair. -/
def getObjectVersionWithMetadata {ε β : Type} (send : Except ε β) : Except ε β × List LogLevel :=
  match send with
  | .ok value => (.ok value, [.log, .log])
  | .error e => (.error e, [.log, .error])

/-- `listObjects()` with its try/catch: one `ListObjectsV2Command`; on
success the `Contents || []` value of `listObjects`, on failure one
error-level log and the rethrown backend error. -/
def listObjectsCall {ε : Type} (send : Except ε ListObjectsResponse) :
    Except ε (List ObjectSummary) × List LogLevel :=
  match send with
  | .ok resp => (.ok (listObjects resp), [.log, .log])
  | .error e => (.error e, [.log, .error])

/-- `listObjectVersions()` with its try/catch: one
`ListObjectVersionsCommand`; on success the `Versions || []` value of
`listObjectVersions`. -/
def listObjectVersionsCall {ε : Type} (send : Except ε ListVersionsResponse) :
    Except ε (List VEntry) × List LogLevel :=
  match send with
  | .ok resp => (.ok (listObjectVersions resp), [.log, .log])
  | .error e => (.error e, [.log, .error])

/-- `isVersioningEnabled()` with its try/catch: one
`GetBucketVersioningCommand`; on success the strict-equality value of
`isVersioningEnabled`. -/
def isVersioningEnabledCall {ε : Type} (send : Except ε VersioningStatusResponse) :
    Except ε Bool × List LogLevel :=
  match send with
  | .ok resp => (.ok (isVersioningEnabled resp), [.log, .log])
  | .error e => (.error e, [.log, .error])

/-- `listObjectVersionsForKey(key)` with its try/catch: one prefix
`ListObjectVersionsCommand`; the success path logs three times (start,
`this.logger.log(response)`, found-count) before returning the merged
sorted value of `listObjectVersionsForKey`; failure logs once at error
level and rethrows. -/
def listObjectVersionsForKeyCall {ε : Type} (key : String)
    (send : Except ε ListVersionsResponse) : Except ε (List VEntry) × List LogLevel :=
  match send with
  | .ok resp => (.ok (listObjectVersionsForKey key resp), [.log, .log, .log])
  | .error e => (.error e, [.log, .error])

/-- `deleteObjectWithMarker(key)` with its try/catch: one unversioned
`DeleteObjectCommand`; on success the `response.VersionId` value of
`deleteObjectWithMarker`. -/
def deleteObjectWithMarkerCall {ε : Type} (send : Except ε DeleteObjectResponse) :
    Except ε (Option String) × List LogLevel :=
  match send with
  | .ok resp => (.ok (deleteObjectWithMarker resp), [.log, .log])
  | .error e => (.error e, [.log, .error])

/-- Logger trace of one `undeleteObject(key)` call, flattening the logs
of the nested calls (the listing send is the successful `resp`, matching
`undeleteObject`).  Start log; the three success logs of
`listObjectVersionsForKey`; then either the no-marker path
(`logger.warn` plus the catch's `logger.error`), or the found-count log,
the logs of the nested `deleteObjectVersion`, and on success the final
success log — while on a backend delete failure `deleteObjectVersion`'s
catch has already logged at error level and `undeleteObject`'s own catch
logs at error level again before rethrowing.  The `none` branch is
unreachable as in `undeleteObject`. -/
def undeleteObjectLogs {ε ρ : Type} (key : String) (resp : ListVersionsResponse)
    (delBackend : String → Option String → Except ε ρ) : List LogLevel :=
  let listLogs := (listObjectVersionsForKeyCall key (Except.ok resp : Except ε ListVersionsResponse)).2
  let deleteMarkers := deleteMarkersFor key resp
  if deleteMarkers.isEmpty then
    [.log] ++ listLogs ++ [.warn, .error]
  else
    match selectedDeleteMarker key resp with
    | none => [.log] ++ listLogs ++ [.log, .error]
    | some latest =>
      let dv := deleteObjectVersion delBackend key latest.VersionId
      match dv.1 with
      | .ok _ => [.log] ++ listLogs ++ [.log] ++ dv.2 ++ [.log]
      | .error _ => [.log] ++ listLogs ++ [.log] ++ dv.2 ++ [.error]

end StorjService

namespace Controller

/-- Response body of `DELETE /bucket-versioning/delete/:key`. -/
structure DeleteWithMarkerDto where
  deleteVersionId : Option String
deriving DecidableEq

/-- `BucketVersioningController.deleteObjectWithMarker`: awaits the
service call (a pass-through to `StorjService.deleteObjectWithMarker`)
and wraps the value as `{ deleteVersionId }`. -/
def deleteObjectWithMarkerEndpoint (resp : DeleteObjectResponse) : DeleteWithMarkerDto :=
  { deleteVersionId := StorjService.deleteObjectWithMarker resp }

end Controller

/-! Concrete data used by the scenario conjuncts and the witnesses. -/

/-- Version `v1@t=1` of key `a.txt` (scenario of the spec). -/
def v1Example : VEntry :=
  { Key := some "a.txt", VersionId := some "v1", LastModified := some 1,
    IsDeleteMarker := false }

/-- Version `v2@t=2` of key `a.txt` (scenario of the spec). -/
def v2Example : VEntry :=
  { Key := some "a.txt", VersionId := some "v2", LastModified := some 2,
    IsDeleteMarker := false }

/-- Delete marker `dm1@t=3` of key `a.txt` (scenario of the spec). -/
def dm1Example : VEntry :=
  { Key := some "a.txt", VersionId := some "dm1", LastModified := some 3,
    IsDeleteMarker := true }

/-- Backend listing response of the scenario: versions `v1`, `v2` and
delete marker `dm1`. -/
def exampleResp : ListVersionsResponse :=
  { Versions := some [v1Example, v2Example], DeleteMarkers := some [dm1Example] }

/-- A marker-free listing response: one plain version, no delete
markers. -/
def noMarkerResp : ListVersionsResponse :=
  { Versions := some [v1Example], DeleteMarkers := none }

/-- A listing response holding a single delete marker for key `k`. -/
def oneMarkerResp : ListVersionsResponse :=
  { Versions := none,
    DeleteMarkers := some [{ Key := some "k", VersionId := some "dm",
                             LastModified := some 5, IsDeleteMarker := true }] }

/-- The delete marker inside `oneMarkerResp`. -/
def dmW : VEntry :=
  { Key := some "k", VersionId := some "dm", LastModified := some 5,
    IsDeleteMarker := true }

/-- A delete backend that always succeeds with `0`. -/
def wDelOk : String → Option String → Except String Nat :=
  fun _ _ => .ok 0

/-- A delete backend that always fails. -/
def wDelErr : String → Option String → Except String Nat :=
  fun _ _ => .error "boom"

/-- Claim C5: `isVersioningEnabled` returns `true` exactly when the
backend reports versioning status `Enabled`; any other status, an absent
status and `Suspended` included, yields `false`. -/
theorem isVersioningEnabled_iff_enabled :
    ∀ resp : VersioningStatusResponse,
      (StorjService.isVersioningEnabled resp = true ↔ resp.Status = some "Enabled")
      ∧ StorjService.isVersioningEnabled { Status := some "Suspended" } = false
      ∧ StorjService.isVersioningEnabled { Status := none } = false := by
  intro resp
  refine ⟨?_, by decide, by decide⟩
  simp [StorjService.isVersioningEnabled]

/-- Claim C8: the unversioned delete endpoint returns
`{ deleteVersionId }` holding exactly the delete-marker version id of the
backend's delete response, `none` when the backend reports none. -/
theorem deleteEndpoint_returns_marker_versionId :
    ∀ resp : DeleteObjectResponse,
      (Controller.deleteObjectWithMarkerEndpoint resp).deleteVersionId = resp.VersionId
      ∧ (Controller.deleteObjectWithMarkerEndpoint { VersionId := none }).deleteVersionId
          = none := by
  intro resp
  exact ⟨rfl, rfl⟩

/-- Claim C10: when the optional result arrays (`Contents`, `Versions`,
`DeleteMarkers`) are absent from the backend response, the listing
operations succeed with the empty list. -/
theorem absent_arrays_treated_as_empty :
    ∀ key : String,
      StorjService.listObjects { Contents := none } = []
      ∧ StorjService.listObjectVersions { Versions := none, DeleteMarkers := none } = []
      ∧ StorjService.listObjectVersionsForKey key
          { Versions := none, DeleteMarkers := none } = [] := by
  intro key
  exact ⟨rfl, rfl, rfl⟩

/-- Claim C6, counterexample: with access key, secret key and endpoint
present but the bucket name absent, the `StorjService` constructor
succeeds, so absence of the bucket name is not fatal as claimed. -/
theorem constructor_missing_bucket_succeeds :
    StorjService.constructor
        { STORJ_ACCESS_KEY := some "k", STORJ_SECRET_KEY := some "s",
          STORJ_ENDPOINT := some "e", STORJ_BUCKET := none }
      = .ok { bucket := none,
              s3Client := { region := "us-east-1", endpoint := "e",
                            accessKeyId := "k", secretAccessKey := "s",
                            forcePathStyle := true } } := by
  rfl

/-- Claim C6, amended: construction succeeds exactly when access key,
secret key and endpoint are all present and non-empty; the bucket name is
read but never validated, so its absence does not prevent
construction. -/
theorem constructor_ok_iff :
    ∀ cfg : StorjService.StorjConfig,
      (∃ st, StorjService.constructor cfg = .ok st)
        ↔ (StorjService.truthy cfg.STORJ_ACCESS_KEY = true
           ∧ StorjService.truthy cfg.STORJ_SECRET_KEY = true
           ∧ StorjService.truthy cfg.STORJ_ENDPOINT = true) := by
  intro cfg
  cases h1 : StorjService.truthy cfg.STORJ_ACCESS_KEY <;>
    cases h2 : StorjService.truthy cfg.STORJ_SECRET_KEY <;>
      cases h3 : StorjService.truthy cfg.STORJ_ENDPOINT <;>
        simp [StorjService.constructor, h1, h2, h3]

/-- Helper: a non-empty filtered marker list yields a selected marker. -/
theorem selectedDeleteMarker_of_ne_nil :
    ∀ (key : String) (resp : ListVersionsResponse),
      StorjService.deleteMarkersFor key resp ≠ [] →
      ∃ m, StorjService.selectedDeleteMarker key resp = some m := by
  intro key resp hne
  have hperm := List.perm_insertionSort byTimeDesc (StorjService.deleteMarkersFor key resp)
  cases hS : List.insertionSort byTimeDesc (StorjService.deleteMarkersFor key resp) with
  | nil => exact absurd (hS ▸ hperm).symm.eq_nil hne
  | cons a t =>
    refine ⟨a, ?_⟩
    simp only [StorjService.selectedDeleteMarker, hS, List.head?_cons]

/-- Claim C7, counterexample: for the adapter operation `undeleteObject`
and a concrete failing backend delete, the failure is logged at error
level twice — once in `deleteObjectVersion`'s catch and once again in
`undeleteObject`'s own catch — refuting 'logs the failure once at error
level' for every adapter operation; the backend error is still
propagated carrying the original cause. -/
theorem undeleteObject_delete_failure_logged_twice :
    (StorjService.undeleteObjectLogs "k" oneMarkerResp wDelErr).count .error = 2
    ∧ StorjService.undeleteObject "k" oneMarkerResp wDelErr
        = .error (.backend "boom") := by
  exact ⟨by decide, rfl⟩

/-- Claim C7, amended: every adapter operation wrapping a single backend
send — `uploadFile`, `downloadFile`, `getObjectVersion`,
`getCurrentObjectVersion`, `getObjectVersionWithMetadata`,
`listObjects`, `listObjectVersions`, `isVersioningEnabled`,
`listObjectVersionsForKey`, `deleteObjectWithMarker`,
`deleteObjectVersion` — makes that single attempt, logs the failure
exactly once at error level, and rethrows the backend error unchanged
(the original cause itself); the composite `undeleteObject` also makes a
single delete attempt and propagates the backend error carrying the
original cause, but logs the failure at error level twice, once in the
nested `deleteObjectVersion` catch and once in its own. -/
theorem backend_failures_one_error_log_except_undelete :
    ∀ {ε β : Type} (e : ε) (key : String) (vid : Option String)
      (resp : ListVersionsResponse)
      (delBackend : String → Option String → Except ε β),
      (∀ k v, delBackend k v = Except.error e) →
      StorjService.deleteMarkersFor key resp ≠ [] →
      StorjService.uploadFile (Except.error e : Except ε β) = (.error e, [.log, .error])
      ∧ StorjService.downloadFile (Except.error e : Except ε β) = (.error e, [.log, .error])
      ∧ StorjService.getObjectVersion (Except.error e : Except ε β)
          = (.error e, [.log, .error])
      ∧ StorjService.getCurrentObjectVersion (Except.error e : Except ε β)
          = (.error e, [.log, .error])
      ∧ StorjService.getObjectVersionWithMetadata (Except.error e : Except ε β)
          = (.error e, [.log, .error])
      ∧ StorjService.listObjectsCall (Except.error e) = (.error e, [.log, .error])
      ∧ StorjService.listObjectVersionsCall (Except.error e) = (.error e, [.log, .error])
      ∧ StorjService.isVersioningEnabledCall (Except.error e) = (.error e, [.log, .error])
      ∧ StorjService.listObjectVersionsForKeyCall key (Except.error e)
          = (.error e, [.log, .error])
      ∧ StorjService.deleteObjectWithMarkerCall (Except.error e) = (.error e, [.log, .error])
      ∧ StorjService.deleteObjectVersion delBackend key vid = (.error e, [.log, .error])
      ∧ StorjService.undeleteObject key resp delBackend = .error (.backend e)
      ∧ (StorjService.undeleteObjectLogs key resp delBackend).count .error = 2 := by
  intro ε β e key vid resp delBackend hdel hne
  obtain ⟨m, hsel⟩ := selectedDeleteMarker_of_ne_nil key resp hne
  have hempty : (StorjService.deleteMarkersFor key resp).isEmpty = false := by
    cases hL : StorjService.deleteMarkersFor key resp with
    | nil => exact absurd hL hne
    | cons a t => rfl
  have hdv : StorjService.deleteObjectVersion delBackend key m.VersionId
      = (.error e, [.log, .error]) := by
    simp [StorjService.deleteObjectVersion, hdel]
  refine ⟨rfl, rfl, rfl, rfl, rfl, rfl, rfl, rfl, rfl, rfl, ?_, ?_, ?_⟩
  · simp [StorjService.deleteObjectVersion, hdel]
  · simp [StorjService.undeleteObject, hempty, hsel, hdv]
  · have hlogs : StorjService.undeleteObjectLogs key resp delBackend
        = [.log] ++ [.log, .log, .log] ++ [.log] ++ [.log, .error] ++ [.error] := by
      simp [StorjService.undeleteObjectLogs, hempty, hsel, hdv,
        StorjService.listObjectVersionsForKeyCall]
    rw [hlogs]
    rfl

/-- Witness for the amended claim C7 at a failing backend, the one-marker
response and key `k`. -/
theorem backend_failures_one_error_log_except_undelete_witness :
    StorjService.uploadFile (Except.error "boom" : Except String Nat)
        = (.error "boom", [.log, .error])
    ∧ StorjService.downloadFile (Except.error "boom" : Except String Nat)
        = (.error "boom", [.log, .error])
    ∧ StorjService.getObjectVersion (Except.error "boom" : Except String Nat)
        = (.error "boom", [.log, .error])
    ∧ StorjService.getCurrentObjectVersion (Except.error "boom" : Except String Nat)
        = (.error "boom", [.log, .error])
    ∧ StorjService.getObjectVersionWithMetadata (Except.error "boom" : Except String Nat)
        = (.error "boom", [.log, .error])
    ∧ StorjService.listObjectsCall (Except.error "boom") = (.error "boom", [.log, .error])
    ∧ StorjService.listObjectVersionsCall (Except.error "boom")
        = (.error "boom", [.log, .error])
    ∧ StorjService.isVersioningEnabledCall (Except.error "boom")
        = (.error "boom", [.log, .error])
    ∧ StorjService.listObjectVersionsForKeyCall "k" (Except.error "boom")
        = (.error "boom", [.log, .error])
    ∧ StorjService.deleteObjectWithMarkerCall (Except.error "boom")
        = (.error "boom", [.log, .error])
    ∧ StorjService.deleteObjectVersion wDelErr "k" (some "v")
        = (.error "boom", [.log, .error])
    ∧ StorjService.undeleteObject "k" oneMarkerResp wDelErr = .error (.backend "boom")
    ∧ (StorjService.undeleteObjectLogs "k" oneMarkerResp wDelErr).count .error = 2 :=
  backend_failures_one_error_log_except_undelete "boom" "k" (some "v") oneMarkerResp
    wDelErr (fun _ _ => rfl) (by decide)

/-- Claim C9: the bucket-wide `listObjectVersions` returns exactly the
backend's `Versions` array and never the delete markers, while the
per-key listing of the same response does include the delete marker. -/
theorem listObjectVersions_excludes_markers :
    ∀ (resp : ListVersionsResponse) (vs : List VEntry),
      resp.Versions = some vs →
      StorjService.listObjectVersions resp = vs
      ∧ dm1Example ∈ StorjService.listObjectVersionsForKey "a.txt" exampleResp
      ∧ dm1Example ∉ StorjService.listObjectVersions exampleResp := by
  intro resp vs h
  refine ⟨?_, by decide, by decide⟩
  simp [StorjService.listObjectVersions, h]

/-- Witness for claim C9 at the scenario response. -/
theorem listObjectVersions_excludes_markers_witness :
    StorjService.listObjectVersions exampleResp = [v1Example, v2Example]
    ∧ dm1Example ∈ StorjService.listObjectVersionsForKey "a.txt" exampleResp
    ∧ dm1Example ∉ StorjService.listObjectVersions exampleResp :=
  listObjectVersions_excludes_markers exampleResp [v1Example, v2Example] rfl

/-- Claim C3: the per-key listing returns exactly N+M entries — a
permutation of the concatenation of the `Versions` and `DeleteMarkers`
arrays — sorted descending by last-modified time with a missing
timestamp read as `0`; on the scenario response it returns
`[dm1, v2, v1]`. -/
theorem listObjectVersionsForKey_merges_and_sorts :
    ∀ (key : String) (resp : ListVersionsResponse),
      (StorjService.listObjectVersionsForKey key resp).length
          = (resp.Versions.getD []).length + (resp.DeleteMarkers.getD []).length
      ∧ (StorjService.listObjectVersionsForKey key resp).Perm
          (resp.Versions.getD [] ++ resp.DeleteMarkers.getD [])
      ∧ List.Sorted byTimeDesc (StorjService.listObjectVersionsForKey key resp)
      ∧ StorjService.listObjectVersionsForKey "a.txt" exampleResp
          = [dm1Example, v2Example, v1Example] := by
  intro key resp
  have hperm := List.perm_insertionSort byTimeDesc
      (resp.Versions.getD [] ++ resp.DeleteMarkers.getD [])
  refine ⟨?_, hperm, List.sorted_insertionSort byTimeDesc _, by decide⟩
  simp [StorjService.listObjectVersionsForKey]


/-- Claim C2: on a merged version sequence containing zero delete
markers, `undeleteObject` fails with `noDeleteMarkerFound` and issues no
delete call to the backend — its outcome does not depend on the delete
backend at all. -/
theorem undeleteObject_without_marker_fails :
    ∀ {ε ρ : Type} (key : String) (resp : ListVersionsResponse)
      (delBackend delBackend2 : String → Option String → Except ε ρ),
      (∀ v ∈ StorjService.listObjectVersionsForKey key resp, v.IsDeleteMarker = false) →
      StorjService.undeleteObject key resp delBackend = .error .noDeleteMarkerFound
      ∧ StorjService.undeleteObject key resp delBackend
          = StorjService.undeleteObject key resp delBackend2 := by
  intro ε ρ key resp d1 d2 h
  have hfilter : StorjService.deleteMarkersFor key resp = [] := by
    simp only [StorjService.deleteMarkersFor, List.filter_eq_nil_iff]
    intro v hv
    simp [h v hv]
  have hempty : (StorjService.deleteMarkersFor key resp).isEmpty = true := by
    simp [hfilter]
  constructor <;> simp [StorjService.undeleteObject, hempty]

/-- Witness for claim C2: a response with one plain version and no delete
markers, checked against two distinct delete backends. -/
theorem undeleteObject_without_marker_fails_witness :
    StorjService.undeleteObject "k" noMarkerResp wDelOk = .error .noDeleteMarkerFound
    ∧ StorjService.undeleteObject "k" noMarkerResp wDelOk
        = StorjService.undeleteObject "k" noMarkerResp wDelErr :=
  undeleteObject_without_marker_fails "k" noMarkerResp wDelOk wDelErr (by decide)

/-- Claim C1: when the merged version sequence holds at least one delete
marker for the key (all carrying timestamps), `undeleteObject` selects a
delete marker of greatest last-modified time among them, issues the one
version-targeted delete for that marker's version id, and returns that
backend delete result. -/
theorem undeleteObject_deletes_latest_marker :
    ∀ {ε ρ : Type} (key : String) (resp : ListVersionsResponse)
      (delBackend : String → Option String → Except ε ρ),
      StorjService.deleteMarkersFor key resp ≠ [] →
      (∀ v ∈ StorjService.deleteMarkersFor key resp, v.LastModified.isSome = true) →
      ∃ m, StorjService.selectedDeleteMarker key resp = some m
        ∧ m ∈ StorjService.deleteMarkersFor key resp
        ∧ (∀ v ∈ StorjService.deleteMarkersFor key resp,
            jsDateMs v.LastModified ≤ jsDateMs m.LastModified)
        ∧ StorjService.undeleteObject key resp delBackend
            = (match delBackend key m.VersionId with
               | .ok result => .ok result
               | .error e => .error (.backend e)) := by
  intro ε ρ key resp delBackend hne _hsome
  have hperm := List.perm_insertionSort byTimeDesc (StorjService.deleteMarkersFor key resp)
  have hsne : List.insertionSort byTimeDesc (StorjService.deleteMarkersFor key resp) ≠ [] := by
    intro h0
    exact hne (h0 ▸ hperm).symm.eq_nil
  obtain ⟨m, rest, hS⟩ : ∃ m rest,
      List.insertionSort byTimeDesc (StorjService.deleteMarkersFor key resp) = m :: rest := by
    cases hS : List.insertionSort byTimeDesc (StorjService.deleteMarkersFor key resp) with
    | nil => exact absurd hS hsne
    | cons a t => exact ⟨a, t, rfl⟩
  have hsel : StorjService.selectedDeleteMarker key resp = some m := by
    simp only [StorjService.selectedDeleteMarker, hS, List.head?_cons]
  have hmem : m ∈ StorjService.deleteMarkersFor key resp := by
    refine hperm.mem_iff.mp ?_
    rw [hS]
    exact List.mem_cons_self m rest
  have hsorted := List.sorted_insertionSort byTimeDesc (StorjService.deleteMarkersFor key resp)
  rw [hS] at hsorted
  have hmax : ∀ v ∈ StorjService.deleteMarkersFor key resp,
      jsDateMs v.LastModified ≤ jsDateMs m.LastModified := by
    intro v hv
    have hvS : v ∈ m :: rest := by
      rw [← hS]
      exact hperm.mem_iff.mpr hv
    rcases List.mem_cons.mp hvS with h | h
    · exact h ▸ le_rfl
    · exact List.rel_of_sorted_cons hsorted v h
  have hempty : (StorjService.deleteMarkersFor key resp).isEmpty = false := by
    cases hL : StorjService.deleteMarkersFor key resp with
    | nil => exact absurd hL hne
    | cons a t => rfl
  refine ⟨m, hsel, hmem, hmax, ?_⟩
  cases hdb : delBackend key m.VersionId with
  | ok r =>
    simp [StorjService.undeleteObject, hempty, hsel, StorjService.deleteObjectVersion, hdb]
  | error e =>
    simp [StorjService.undeleteObject, hempty, hsel, StorjService.deleteObjectVersion, hdb]

/-- Witness for claim C1: a response with a single delete marker for key
`k`; undelete targets it and returns the backend delete result. -/
theorem undeleteObject_deletes_latest_marker_witness :
    StorjService.selectedDeleteMarker "k" oneMarkerResp = some dmW
    ∧ StorjService.undeleteObject "k" oneMarkerResp wDelOk = .ok 0 := by
  obtain ⟨m, hsel, -, -, heq⟩ :=
    undeleteObject_deletes_latest_marker "k" oneMarkerResp wDelOk (by decide) (by decide)
  have hm : m = dmW := by
    have h2 : StorjService.selectedDeleteMarker "k" oneMarkerResp = some dmW := by decide
    exact Option.some.inj (hsel.symm.trans h2)
  subst hm
  refine ⟨hsel, ?_⟩
  rw [heq]
  rfl

/-- Claim C4: any marker `undeleteObject` can target — the selected head
of the sorted, filtered markers — has its delete-marker flag `true` and
its key exactly equal to the requested key, so no version-targeted delete
is ever issued for an entry failing the defensive re-check. -/
theorem undeleteObject_targets_only_matching_markers :
    ∀ (key : String) (resp : ListVersionsResponse) (m : VEntry),
      StorjService.selectedDeleteMarker key resp = some m →
      m.IsDeleteMarker = true ∧ m.Key = some key := by
  intro key resp m h
  have hmemS : m ∈ List.insertionSort byTimeDesc (StorjService.deleteMarkersFor key resp) := by
    rcases hS : List.insertionSort byTimeDesc (StorjService.deleteMarkersFor key resp)
      with - | ⟨a, t⟩
    · rw [StorjService.selectedDeleteMarker, hS] at h
      cases h
    · rw [StorjService.selectedDeleteMarker, hS] at h
      have ha : a = m := Option.some.inj h
      exact ha ▸ List.mem_cons_self a t
  have hmem : m ∈ StorjService.deleteMarkersFor key resp :=
    (List.mem_insertionSort byTimeDesc).mp hmemS
  rw [StorjService.deleteMarkersFor] at hmem
  have hp := (List.mem_filter.mp hmem).2
  simp only [Bool.and_eq_true, beq_iff_eq] at hp
  exact hp

/-- Witness for claim C4: the selected marker of the one-marker response
carries the flag and the exact key. -/
theorem undeleteObject_targets_only_matching_markers_witness :
    dmW.IsDeleteMarker = true ∧ dmW.Key = some "k" :=
  undeleteObject_targets_only_matching_markers "k" oneMarkerResp dmW (by decide)

end BucketVersioning
